import Mathlib

/-
Verification of core behaviors of the PyRC IRC client.

Shallow embedding of the relevant parts of the source:
  - pyrc_core/irc/handlers/irc_numeric_handlers.py (366/403/471/473/474/475/433 handlers)
  - pyrc_core/client/irc_client_logic.py (handle_server_message, switch_active_context, add_message)
  - pyrc_core/dcc/dcc_manager.py (cleanup, resume, passive offers, port selection)
  - pyrc_core/commands/command_handler.py (process_user_command)

Python string operations are modelled over the character list underlying a
Lean string (IRC identifiers and the strings in play here are ASCII, where
Python str.lower/upper/strip agree with the ASCII case maps used below).
Machine integers do not overflow in any modelled path, so Nat/Int are used
directly.
-/

namespace PyRC

/-! ## Python-style string primitives -/

/-- Python `s.lower()` (ASCII case map, as used for IRC names). -/
def pyLower (s : String) : String :=
  String.mk (s.data.map Char.toLower)

/-- Python `s.upper()` (ASCII case map). -/
def pyUpper (s : String) : String :=
  String.mk (s.data.map Char.toUpper)

/-- Python `s.startswith(pre)`. -/
def strStarts (s pre : String) : Bool :=
  pre.data.isPrefixOf s.data

/-- Python `s.endswith(suf)`. -/
def strEnds (s suf : String) : Bool :=
  suf.data.isSuffixOf s.data

/-- Python `len(s)` (code points). -/
def strLen (s : String) : Nat :=
  s.data.length

/-- Python `s[n:]`. -/
def strDrop (s : String) (n : Nat) : String :=
  String.mk (s.data.drop n)

/-- Python `s[:-n]` for `n ≤ len(s)` (drop the last `n` characters). -/
def strDropRight (s : String) (n : Nat) : String :=
  String.mk (s.data.take (s.data.length - n))

/-- Python `s[:n]`. -/
def strTake (s : String) (n : Nat) : String :=
  String.mk (s.data.take n)

/-- Python whitespace test used by str.strip / int() (ASCII whitespace). -/
def isPyWs (c : Char) : Bool :=
  c == ' ' || c == '\t' || c == '\n' || c == '\r' || c == '\x0b' || c == '\x0c'

/-- Strip leading and trailing whitespace from a character list. -/
def trimWs (l : List Char) : List Char :=
  ((l.dropWhile isPyWs).reverse.dropWhile isPyWs).reverse

/-- Python `s.strip()`. -/
def pyStrip (s : String) : String :=
  String.mk (trimWs s.data)

/-- Characterwise splitter: Python `s.split(sep)` for a one-character
separator yields (possibly empty) segments between every occurrence. -/
def splitChar (sep : Char) : List Char → List (List Char)
  | [] => [[]]
  | c :: cs =>
    if c = sep then [] :: splitChar sep cs
    else
      match splitChar sep cs with
      | [] => [[c]]
      | h :: t => (c :: h) :: t

/-- Python `s.split(" ")`. -/
def pySplitSpace (s : String) : List String :=
  (splitChar ' ' s.data).map String.mk

/-- Python `needle in hay` (contiguous substring test) on char lists. -/
def infixOfL (p : List Char) : List Char → Bool
  | [] => p.isEmpty
  | c :: t => p.isPrefixOf (c :: t) || infixOfL p t

/-- Python `needle in hay` for strings. -/
def strHasSub (needle hay : String) : Bool :=
  infixOfL needle.data hay.data

/-- Python `s.split(" ", 1)`: the first token and, when a space occurs, the
remainder after the first space. -/
def pySplit1Space (s : String) : String × Option String :=
  let pre := s.data.takeWhile (fun c => !(c == ' '))
  if pre.length = s.data.length then (String.mk pre, none)
  else (String.mk pre, some (String.mk (s.data.drop (pre.length + 1))))

/-- Decimal digits of a positive numeral, most significant first
(`fuel ≥ n` suffices). -/
def natDecimalAux : Nat → Nat → List Char
  | 0, _ => []
  | _ + 1, 0 => []
  | fuel + 1, n => natDecimalAux fuel (n / 10) ++ [Char.ofNat (48 + n % 10)]

/-- Python `str(n)` for a natural number. -/
def natDecimal (n : Nat) : String :=
  if n = 0 then "0" else String.mk (natDecimalAux (n + 1) n)

/-- Digit tail of a Python integer literal: digits with single underscores
allowed between digits. `acc` is the value read so far. -/
def pyDigitsTail (acc : Nat) : List Char → Option Nat
  | [] => some acc
  | '_' :: c :: rest =>
    if c.isDigit then pyDigitsTail (acc * 10 + (c.toNat - 48)) rest else none
  | c :: rest =>
    if c.isDigit then pyDigitsTail (acc * 10 + (c.toNat - 48)) rest else none

/-- Unsigned part of a Python integer literal (at least one digit). -/
def pyDigits : List Char → Option Nat
  | [] => none
  | c :: rest => if c.isDigit then pyDigitsTail (c.toNat - 48) rest else none

/-- Python `int(s)`: optional surrounding whitespace, optional sign, ASCII
digits with single underscores between digits; `none` models ValueError. -/
def pyIntParse (s : String) : Option Int :=
  match trimWs s.data with
  | '-' :: rest => (pyDigits rest).map (fun n => -(n : Int))
  | '+' :: rest => (pyDigits rest).map (fun n => (n : Int))
  | l => (pyDigits l).map (fun n => (n : Int))

/-! ## Shared data model -/

/-- Channel join-status state machine (spec Data Model: ChannelJoinStatus). -/
inductive ChannelJoinStatus where
  | notJoined
  | pendingInitialJoin
  | joinCommandSent
  | selfJoinReceived
  | fullyJoined
  | joinFailed
  | parted
  deriving DecidableEq, Repr

/-- Context types (spec Data Model: Context.type). -/
inductive CtxType where
  | status
  | channel
  | query
  | dccTransfers
  | listResults
  | generic
  deriving DecidableEq, Repr

/-- The per-context fields the join-state invariant depends on. -/
structure Ctx where
  type : CtxType
  joinStatus : ChannelJoinStatus
  deriving DecidableEq, Repr

/-- Modelled from the spec: RFC 1459 case-folding of context names
(ContextManager "case-folds channel names"; `[]\~` are the uppercase forms of
`{}|^`).  pyrc_core/context_manager.py is not among the provided sources; this
follows the spec's Context paragraph. -/
def charFold (c : Char) : Char :=
  if c = '[' then '{'
  else if c = ']' then '}'
  else if c = '\\' then '|'
  else if c = '~' then '^'
  else c.toLower

/-- Modelled from the spec: context-name normalization applied by
ContextManager operations (create_context / get_context). -/
def normName (s : String) : String :=
  String.mk (s.data.map charFold)

/-! ## C1: join-state handlers (irc_numeric_handlers.py)

State relevant to the `currently_joined_channels` invariant: the context table
(keyed by normalized name, per the context manager's case-folding contract)
and `ConnectionInfo.currently_joined_channels`, a Python set of the raw
strings the handlers pass in (`conn_info` may be absent, in which case the
handlers skip the joined-set mutation). -/

structure JoinState where
  contexts : String → Option Ctx
  joined : Option (List String)

/-- _handle_rpl_endofnames (366): if the context exists, is a channel, and its
join_status is SELF_JOIN_RECEIVED / JOIN_COMMAND_SENT / PENDING_INITIAL_JOIN,
set it to FULLY_JOINED and (when conn_info exists) add the raw channel name to
currently_joined_channels.  All other branches only emit messages. -/
def handleRplEndofnames (st : JoinState) (chan : String) : JoinState :=
  match st.contexts (normName chan) with
  | some ctx =>
    if ctx.type = CtxType.channel then
      if ctx.joinStatus = ChannelJoinStatus.selfJoinReceived ∨
         ctx.joinStatus = ChannelJoinStatus.joinCommandSent ∨
         ctx.joinStatus = ChannelJoinStatus.pendingInitialJoin then
        { contexts := fun s =>
            if s = normName chan then
              some { ctx with joinStatus := ChannelJoinStatus.fullyJoined }
            else st.contexts s,
          joined := st.joined.map (fun j => j.insert chan) }
      else st
    else st
  | none => st

/-- _handle_err_nosuchchannel (403) and _handle_err_channel_join_group
(471/473/474/475): identical state effect — if the context exists and is a
channel, set join_status to JOIN_FAILED; then (when conn_info exists) discard
the raw channel name from currently_joined_channels (set.discard removes the
exact string, modelled as filtering it out). -/
def handleErrChannelJoin (st : JoinState) (chan : String) : JoinState :=
  let st1 :=
    match st.contexts (normName chan) with
    | some ctx =>
      if ctx.type = CtxType.channel then
        { st with contexts := fun s =>
            if s = normName chan then
              some { ctx with joinStatus := ChannelJoinStatus.joinFailed }
            else st.contexts s }
      else st
    | none => st
  { st1 with joined := st1.joined.map (fun j => j.filter (fun r => r ≠ chan)) }

/-- The spec invariant: every member of currently_joined_channels names a
context whose join_status is FULLY_JOINED (lookup through the case-folding
context manager).  Vacuous when conn_info is absent. -/
def joinedInv (st : JoinState) : Prop :=
  ∀ j, st.joined = some j →
    ∀ r ∈ j, ∃ c, st.contexts (normName r) = some c ∧
      c.joinStatus = ChannelJoinStatus.fullyJoined

/-- Executable form of `joinedInv`. -/
def joinedInvB (st : JoinState) : Bool :=
  match st.joined with
  | none => true
  | some j =>
    j.all (fun r =>
      match st.contexts (normName r) with
      | some c => c.joinStatus == ChannelJoinStatus.fullyJoined
      | none => false)

/-! ## C3: CTCP gating in handle_server_message (irc_client_logic.py)

`self.dcc_manager` is constructed unconditionally in IRCClient_Logic.__init__,
so the `and self.dcc_manager` guard is always true; DCCManager's
handle_incoming_dcc_ctcp returns immediately (dropping the message) when DCC
is disabled in configuration. -/

/-- Where an inbound server line ends up. -/
inductive MsgRoute where
  | router
  | dccCtcp (payload : String)
  | droppedDccDisabled
  deriving DecidableEq, Repr

/-- handle_server_message's CTCP peel-off combined with
DCCManager.handle_incoming_dcc_ctcp's enabled-check. -/
def dispatchServerMessage (command : String) (trailing : Option String)
    (dccEnabled : Bool) : MsgRoute :=
  if command = "PRIVMSG" ∨ command = "NOTICE" then
    if strStarts (trailing.getD "") "\x01" && strEnds (trailing.getD "") "\x01" then
      if strStarts (pyUpper (strDropRight (strDrop (trailing.getD "") 1) 1)) "DCC " then
        if dccEnabled then
          MsgRoute.dccCtcp (strDropRight (strDrop (trailing.getD "") 1) 1)
        else MsgRoute.droppedDccDisabled
      else MsgRoute.router
    else MsgRoute.router
  else MsgRoute.router

/-- The condition under which handle_server_message peels off a DCC CTCP:
PRIVMSG/NOTICE trailing bracketed by \x01 whose payload upper-cases to a
string starting with `DCC `. -/
def isDccCtcpTrailing (trailing : Option String) : Bool :=
  strStarts (trailing.getD "") "\x01" && strEnds (trailing.getD "") "\x01" &&
    strStarts (pyUpper (strDropRight (strDrop (trailing.getD "") 1) 1)) "DCC "

/-! ## C2: _handle_err_nicknameinuse (433) in irc_numeric_handlers.py -/

/-- The state the 433 handler reads and writes: ConnectionInfo.nick,
ConnectionInfo.last_attempted_nick_change, the network handler's
is_handling_nick_collision flag, and registration_handler.initial_nick
(conn_info and registration_handler modelled as present, which the claim's
scenario presumes). -/
structure NickState where
  nick : String
  lastAttempted : Option String
  isHandlingCollision : Bool
  initialNick : String
  deriving DecidableEq, Repr

/-- Truncation of the candidate: `if len(new_try_nick) > 9: new_try_nick =
new_try_nick[:9]`. -/
def truncate9 (s : String) : String :=
  if strLen s > 9 then strTake s 9 else s

/-- Last character of a nonempty string (Python `s[-1]`; only evaluated on
nonempty nicks). -/
def lastCharD (s : String) : Char :=
  s.data.getLastD ' '

/-- The candidate computation of _handle_err_nicknameinuse, before
truncation.  Note the first branch compares case-insensitively and builds the
candidate from the INITIAL nick.  (The int() of an ASCII digit character
cannot raise, so the ValueError fallback branch of the source is
unreachable here.) -/
def genNickCandidate (current initial : String) : String :=
  if pyLower current = pyLower initial then initial ++ "_"
  else if strEnds current "_" then strDropRight current 1 ++ "1"
  else if (lastCharD current).isDigit then
    strDropRight current 1 ++ natDecimal ((lastCharD current).toNat - 48 + 1)
  else current ++ "_"

/-- `conn_info.last_attempted_nick_change is not None and
....lower() == failed_nick.lower()`. -/
def userNickChangeInFlight (st : NickState) (failedNick : String) : Bool :=
  match st.lastAttempted with
  | some la => pyLower la == pyLower failedNick
  | none => false

/-- _handle_err_nicknameinuse (433): returns the new state and the nick sent
in a NICK command, if any. -/
def handleErrNicknameInUse (st : NickState) (failedNick : String) :
    NickState × Option String :=
  if userNickChangeInFlight st failedNick then
    ({ st with lastAttempted := none }, none)
  else
    let isOur := (!(st.nick == "")) && (pyLower st.nick == pyLower failedNick)
    if isOur && !st.isHandlingCollision then
      let cand := truncate9 (genNickCandidate st.nick st.initialNick)
      ({ st with isHandlingCollision := true, nick := cand }, some cand)
    else if isOur && st.isHandlingCollision then
      ({ st with isHandlingCollision := false }, none)
    else (st, none)

/-- The candidate computation as the claim words it: exact equality with the
initial nick, every rule appending to the CURRENT nick.  Used only to compare
the claim's text against the source computation. -/
def claimNickCandidate (current initial : String) : String :=
  truncate9
    (if current = initial then current ++ "_"
     else if strEnds current "_" then strDropRight current 1 ++ "1"
     else if (lastCharD current).isDigit then
       strDropRight current 1 ++ natDecimal ((lastCharD current).toNat - 48 + 1)
     else current ++ "_")

/-! ## C4: switch_active_context (irc_client_logic.py) -/

/-- Case-insensitive lexicographic Bool order on char lists (Python string
comparison of the `str.lower()` keys). -/
def lexLe : List Char → List Char → Bool
  | [], _ => true
  | _ :: _, [] => false
  | a :: as, b :: bs =>
    if a < b then true else if a = b then lexLe as bs else false

/-- Sort key comparison of `list.sort(key=lambda x: x.lower())`. -/
def ciLe (a b : String) : Bool :=
  lexLe (pyLower a).data (pyLower b).data

/-- Stable insertion for `ciLe` (a new element goes after existing equal
keys, matching Python's stable sort). -/
def insertCi (x : String) : List String → List String
  | [] => [x]
  | y :: ys => if ciLe y x then y :: insertCi x ys else x :: y :: ys

/-- `regular_contexts.sort(key=lambda x: x.lower())` — a stable sort by the
lowercased key. -/
def sortCi (l : List String) : List String :=
  l.foldl (fun acc x => insertCi x acc) []

/-- The cycle order built by switch_active_context: Status first (when
present), the remaining contexts sorted case-insensitively, DCC appended last
(when present and not already in the list). -/
def sortedContextNames (names : List String) : List String :=
  let regular := sortCi (names.filter (fun n => !(n == "Status" || n == "DCC")))
  let l2 := (if names.contains "Status" then ["Status"] else []) ++ regular
  if names.contains "DCC" && !(l2.contains "DCC") then l2 ++ ["DCC"] else l2

/-- Outcome of switch_active_context: a switch, or one of the three
add_message error paths, or an early return with nothing to do. -/
inductive SwitchOutcome where
  | noChange
  | switchTo (name : String)
  | invalidNumber
  | ambiguous
  | notFound
  deriving DecidableEq, Repr

/-- switch_active_context.  `active` is the current active context name with
`""` standing for Python None (both are falsy in the source's tests). -/
def switchActiveContext (names : List String) (active : String)
    (dir : String) : SwitchOutcome :=
  if names.isEmpty then SwitchOutcome.noChange
  else
    let sorted := sortedContextNames names
    let current :=
      if active = "" then (if sorted.isEmpty then "" else sorted.headD "")
      else active
    if current = "" then SwitchOutcome.noChange
    else
      let idxCur := (sorted.indexOf? current).getD 0
      let n := sorted.length
      if n = 0 then SwitchOutcome.noChange
      else if dir = "next" then
        SwitchOutcome.switchTo (sorted.getD ((idxCur + 1) % n) "")
      else if dir = "prev" then
        SwitchOutcome.switchTo (sorted.getD ((idxCur + n - 1) % n) "")
      else if sorted.contains dir then SwitchOutcome.switchTo dir
      else
        match pyIntParse dir with
        | some k =>
          if 0 ≤ k - 1 ∧ k - 1 < (n : Int) then
            SwitchOutcome.switchTo (sorted.getD (k - 1).toNat "")
          else SwitchOutcome.invalidNumber
        | none =>
          let found := sorted.filter (fun nm => strHasSub (pyLower dir) (pyLower nm))
          if found.length = 1 then SwitchOutcome.switchTo (found.headD "")
          else if found.length > 1 then SwitchOutcome.ambiguous
          else
            let exact := sorted.filter (fun nm => pyLower dir == pyLower nm)
            if exact.length = 1 then SwitchOutcome.switchTo (exact.headD "")
            else SwitchOutcome.notFound

/-! ## C5: add_message scrollback pinning (irc_client_logic.py) -/

/-- The word-wrap loop of add_message: greedy fill of lines of width
`maxW` from the words obtained by `full_message.split(" ")`. -/
def wrapLines (fullMessage : String) (maxW : Nat) : List String :=
  let step := fun (acc : List String × String) (word : String) =>
    if acc.2 ≠ "" ∧ strLen acc.2 + strLen word + 1 > maxW then
      (acc.1 ++ [acc.2], word)
    else
      (acc.1, acc.2 ++ (if acc.2 ≠ "" then " " else "") ++ word)
  let r := (pySplitSpace fullMessage).foldl step ([], "")
  let lines := if r.2 ≠ "" then r.1 ++ [r.2] else r.1
  if lines.isEmpty && !(fullMessage == "") then [fullMessage] else lines

/-- `full_message`: the timestamp (strftime result, passed in as `ts`) is
prepended when prefix_time is set and the text does not already start with
the stripped timestamp. -/
def pyFullMessage (text ts : String) (prefixTime : Bool) : String :=
  if prefixTime ∧ ¬ (strStarts text (pyStrip ts) = true) then ts ++ text
  else text

/-- The per-context state add_message touches: the scrollback lines and the
scrollback offset. -/
structure CtxView where
  msgs : List String
  scrollbackOffset : Nat
  deriving DecidableEq, Repr

structure UiState where
  contexts : String → Option CtxView
  active : Option String

/-- Modelled from the spec: ContextManager.add_message_to_context appends one
line to the context scrollback, evicting the oldest lines beyond max_history;
it does not touch scrollback_offset (the pinning adjustment lives in
IRCClient_Logic.add_message, which is in the sources). -/
def addLineToScrollback (maxHistory : Nat) (msgs : List String)
    (line : String) : List String :=
  let m := msgs ++ [line]
  if m.length > maxHistory then m.drop (m.length - maxHistory) else m

/-- IRCClient_Logic.add_message, from the point where the target context is
known: wrap the message, append each wrapped line, and bump
scrollback_offset by the number of lines added when the target is the active
context and the user is scrolled up.  `ignored` is the ignore-list early
return; context creation for a missing target is modelled as a fresh empty
context (create_context is outside the sources; per the spec it creates the
context). -/
def addMessage (st : UiState) (target text ts : String) (prefixTime : Bool)
    (maxW maxHistory : Nat) (ignored : Bool) : UiState :=
  if ignored then st
  else
    let ctx := (st.contexts target).getD ⟨[], 0⟩
    let lines := wrapLines (pyFullMessage text ts prefixTime) maxW
    let msgs := lines.foldl (addLineToScrollback maxHistory) ctx.msgs
    let offset :=
      if st.active = some target ∧ ctx.scrollbackOffset > 0 then
        ctx.scrollbackOffset + lines.length
      else ctx.scrollbackOffset
    { st with contexts := fun s =>
        if s = target then some ⟨msgs, offset⟩ else st.contexts s }

/-! ## C6 and C7: DCC transfer table (dcc_manager.py) -/

/-- DCCTransferStatus (dcc_transfer.py, mirrored from the spec's status state
machine). -/
inductive DCCTransferStatus where
  | queued
  | negotiating
  | connecting
  | transferring
  | completed
  | failed
  | cancelled
  | timedOut
  deriving DecidableEq, Repr

/-- The DCCTransfer fields read by _cleanup_finished_transfers and
attempt_user_resume.  `isSend` is the isinstance(·, DCCSendTransfer) test;
times are clock readings modelled as integers. -/
structure TransferRec where
  isSend : Bool
  status : DCCTransferStatus
  endTime : Option Int
  originalFilename : String
  bytesTransferred : Nat
  filesize : Nat
  peerNick : String
  localFilepath : String
  deriving DecidableEq, Repr

/-- The terminal-status list of _cleanup_finished_transfers. -/
def isTerminalStatus (s : DCCTransferStatus) : Bool :=
  s == DCCTransferStatus.completed || s == DCCTransferStatus.failed ||
    s == DCCTransferStatus.cancelled || s == DCCTransferStatus.timedOut

/-- `transfer.status in [terminal] and transfer.end_time and
(now - transfer.end_time > max_age)`.  Python truthiness of end_time: None
and 0.0 are both falsy (a real monotonic end_time is positive). -/
def markedForCleanup (now maxAge : Int) (t : TransferRec) : Bool :=
  if isTerminalStatus t.status then
    match t.endTime with
    | some e => (!(e == 0)) && decide (now - e > maxAge)
    | none => false
  else false

/-- _cleanup_finished_transfers: collect the ids of old terminal transfers,
then delete exactly those ids from the table. -/
def cleanupFinishedTransfers (cleanupEnabled : Bool) (now maxAge : Int)
    (transfers : List (String × TransferRec)) : List (String × TransferRec) :=
  if !cleanupEnabled then transfers
  else
    let toRemove :=
      (transfers.filter (fun p => markedForCleanup now maxAge p.2)).map
        (fun p => p.1)
    transfers.filter (fun p => !(toRemove.contains p.1))

/-- Result of attempt_user_resume: either a failure dict or a delegated
_execute_send_operation call with the matched transfer's peer, path, name and
size. -/
inductive ResumeResult where
  | failure (error : String)
  | initiated (peerNick localFilepath originalFilename : String) (filesize : Nat)
  deriving DecidableEq, Repr

/-- `status in [FAILED, CANCELLED, TIMED_OUT]`. -/
def resumableByStatus (t : TransferRec) : Bool :=
  t.status == DCCTransferStatus.failed ||
    t.status == DCCTransferStatus.cancelled ||
    t.status == DCCTransferStatus.timedOut

/-- The checks attempt_user_resume performs on the matched transfer, and the
delegated send. -/
def finishResume (t : TransferRec) : ResumeResult :=
  if !(resumableByStatus t) then
    ResumeResult.failure "Transfer is not in a failed or cancelled state."
  else if !(decide (0 < t.bytesTransferred) && decide (t.bytesTransferred < t.filesize)) then
    ResumeResult.failure "Transfer has no partial progress to resume from."
  else ResumeResult.initiated t.peerNick t.localFilepath t.originalFilename t.filesize

/-- attempt_user_resume (dcc_manager.py): id-prefix lookup first, then
case-insensitive filename lookup, with multiple matches in either lookup
rejected as ambiguous. -/
def attemptUserResume (enabled resumeEnabled : Bool)
    (transfers : List (String × TransferRec)) (identifier : String) :
    ResumeResult :=
  if !enabled then ResumeResult.failure "DCC is disabled."
  else if !resumeEnabled then
    ResumeResult.failure "DCC resume is disabled in configuration."
  else
    match transfers.filter (fun p => strStarts p.1 identifier && p.2.isSend) with
    | [p] => finishResume p.2
    | [] =>
      match transfers.filter
          (fun p => p.2.isSend && (pyLower p.2.originalFilename == pyLower identifier)) with
      | [q] => finishResume q.2
      | [] => ResumeResult.failure "No SEND transfer found matching identifier."
      | _ => ResumeResult.failure "Ambiguous filename. Multiple transfers match."
    | _ => ResumeResult.failure "Ambiguous transfer ID prefix."

/-- The two-stage lookup of attempt_user_resume in isolation: the unique
outgoing SEND matched by id-prefix, or failing any id-prefix match, by
case-insensitive filename; `none` when nothing or more than one matches. -/
def lookupResumable (transfers : List (String × TransferRec))
    (identifier : String) : Option TransferRec :=
  match transfers.filter (fun p => strStarts p.1 identifier && p.2.isSend) with
  | [p] => some p.2
  | [] =>
    match transfers.filter
        (fun p => p.2.isSend && (pyLower p.2.originalFilename == pyLower identifier)) with
    | [q] => some q.2
    | _ => none
  | _ => none

/-- Whether a ResumeResult started a new send. -/
def isInitiated : ResumeResult → Bool
  | ResumeResult.initiated _ _ _ _ => true
  | _ => false

/-! ## C8: process_user_command re-entrancy (command_handler.py) -/

/-- What a top-level invocation dispatches. -/
inductive CmdAction where
  | textInput (line : String)
  | coreCommand (cmd argsStr : String)
  | scriptCommand (cmd : String)
  | unknownCommand (cmd : String)
  deriving DecidableEq, Repr

structure CmdOutcome where
  result : Bool
  action : Option CmdAction
  handlerErrored : Bool
  deriving DecidableEq, Repr

/-- The environment process_user_command consults: the active context, the
registered command map and script commands, and whether the dispatched
handler raises (such exceptions are caught inside the try body). -/
structure CmdEnv where
  activeContext : Option String
  commandNames : List String
  scriptCommandNames : List String
  handlerRaises : Bool

/-- process_user_command.  The depth counter is incremented on entry; a
nested call (incremented depth > 1) decrements and returns False before
dispatching anything; otherwise the body runs (handler exceptions are caught
and reported) and the `finally` block decrements.  Returns the outcome and
the final depth. -/
def processUserCommand (env : CmdEnv) (depth : Nat) (line : String) :
    CmdOutcome × Nat :=
  let depth1 := depth + 1
  if depth1 > 1 then
    ({ result := false, action := none, handlerErrored := false }, depth1 - 1)
  else
    let outcome : CmdOutcome :=
      if !(strStarts line "/") then
        match env.activeContext with
        | some _ =>
          { result := true, action := some (CmdAction.textInput line),
            handlerErrored := false }
        | none => { result := false, action := none, handlerErrored := false }
      else
        let parts := pySplit1Space (strDrop line 1)
        let cmd := pyLower parts.1
        let argsStr := parts.2.getD ""
        if env.commandNames.contains cmd then
          { result := true, action := some (CmdAction.coreCommand cmd argsStr),
            handlerErrored := env.handlerRaises }
        else if env.scriptCommandNames.contains cmd then
          { result := true, action := some (CmdAction.scriptCommand cmd),
            handlerErrored := env.handlerRaises }
        else
          { result := true, action := some (CmdAction.unknownCommand cmd),
            handlerErrored := false }
    (outcome, depth1 - 1)

/-! ## C9: accept_passive_offer_by_token (dcc_manager.py) -/

/-- A stored passive offer (spec Data Model: PassiveOffer). -/
structure PassiveOffer where
  nick : String
  filename : String
  filesize : Nat
  ipStr : Option String
  receivedAt : Int
  deriving DecidableEq, Repr

/-- Modelled from the spec: DCCPassiveOfferManager.get_offer — the passive
offer table is token-indexed with expiration passive_mode_token_timeout
(dcc_passive_offer_manager.py is not among the provided sources).  Returns
the stored offer for the token unless it has expired. -/
def getOffer (table : List (String × PassiveOffer)) (token : String)
    (now timeout : Int) : Option PassiveOffer :=
  match table.lookup token with
  | some o => if now - o.receivedAt > timeout then none else some o
  | none => none

/-- Modelled from the spec: DCCPassiveOfferManager.remove_offer deletes the
token's entry from the token-indexed table. -/
def removeOffer (table : List (String × PassiveOffer)) (token : String) :
    List (String × PassiveOffer) :=
  table.filter (fun p => !(p.1 == token))

/-- The arguments accept_passive_offer_by_token passes to
initiate_passive_receive: sender nick, filename, filesize and sender IP all
come from the stored offer. -/
structure PassiveAcceptCall where
  peerNick : String
  offeredFilename : String
  offeredFilesize : Nat
  offerToken : String
  peerIp : Option String
  deriving DecidableEq, Repr

/-- accept_passive_offer_by_token: look the offer up by token alone (a
user-supplied filename mismatch is only logged), remove the token, and
delegate to initiate_passive_receive with the offer's stored fields.  Returns
the new table and the delegated call, `none` when the token is unknown or
expired. -/
def acceptPassiveOfferByToken (table : List (String × PassiveOffer))
    (userFilename token : String) (now timeout : Int) :
    List (String × PassiveOffer) × Option PassiveAcceptCall :=
  match getOffer table token now timeout with
  | none => (table, none)
  | some o =>
    (removeOffer table token,
     some { peerNick := o.nick, offeredFilename := o.filename,
            offeredFilesize := o.filesize, offerToken := token,
            peerIp := o.ipStr })

/-- The fields of the DCCReceiveTransfer built by initiate_passive_receive. -/
structure ReceiveTransferRec where
  peerNick : String
  filename : String
  filesize : Nat
  peerIp : Option String
  deriving DecidableEq, Repr

/-- initiate_passive_receive (dcc_manager.py), with path validation and the
listening-socket acquisition abstracted as oracles: when DCC is enabled and
both succeed, the created transfer carries the call fields. -/
def initiatePassiveReceive (enabled validationOk socketOk : Bool)
    (call : PassiveAcceptCall) : Option ReceiveTransferRec :=
  if !enabled then none
  else if !validationOk then none
  else if !socketOk then none
  else some { peerNick := call.peerNick, filename := call.offeredFilename,
              filesize := call.offeredFilesize, peerIp := call.peerIp }

/-! ## C10: _get_listening_socket port iteration (dcc_manager.py) -/

/-- The port loop: try each port in order, returning the first that binds;
`bindable` abstracts the socket bind/listen outcome (EADDRINUSE and other
errors both just continue to the next port). -/
def findDccPort (bindable : Nat → Bool) : Nat → Nat → Option Nat
  | _, 0 => none
  | lo, fuel + 1 => if bindable lo then some lo else findDccPort bindable (lo + 1) fuel

/-- _get_listening_socket: an inverted configured range is silently replaced
by the default 1024–65535; then `range(port_start, port_end + 1)` is
iterated. -/
def getListeningSocket (bindable : Nat → Bool) (portStart portEnd : Nat) :
    Option Nat :=
  let s := if portStart > portEnd then 1024 else portStart
  let e := if portStart > portEnd then 65535 else portEnd
  findDccPort bindable s (e + 1 - s)

/-! ## Helper lemmas -/

theorem boolNotTrue {b : Bool} (h : ¬ b = true) : b = false := by
  cases b
  · rfl
  · exact absurd rfl h

theorem findDccPort_eq_none_iff (bindable : Nat → Bool) :
    ∀ (fuel lo : Nat), findDccPort bindable lo fuel = none ↔
      ∀ p, lo ≤ p → p < lo + fuel → bindable p = false := by
  intro fuel
  induction fuel with
  | zero => intro lo; simp [findDccPort]; omega
  | succ f ih =>
    intro lo
    unfold findDccPort
    by_cases hB : bindable lo = true
    · rw [if_pos hB]
      constructor
      · intro h; cases h
      · intro h; exact absurd (h lo (le_refl _) (by omega)) (by simp [hB])
    · rw [if_neg hB]
      rw [ih (lo + 1)]
      constructor
      · intro h p hp1 hp2
        rcases Nat.eq_or_lt_of_le hp1 with rfl | hlt
        · exact boolNotTrue hB
        · exact h p hlt (by omega)
      · intro h p hp1 hp2
        exact h p (by omega) (by omega)

theorem findDccPort_eq_some (bindable : Nat → Bool) :
    ∀ (fuel lo p : Nat), findDccPort bindable lo fuel = some p →
      bindable p = true ∧ lo ≤ p ∧ p < lo + fuel ∧
        ∀ q, lo ≤ q → q < p → bindable q = false := by
  intro fuel
  induction fuel with
  | zero => intro lo p h; simp [findDccPort] at h
  | succ f ih =>
    intro lo p h
    unfold findDccPort at h
    by_cases hB : bindable lo = true
    · rw [if_pos hB] at h
      cases h
      exact ⟨hB, le_refl _, by omega, fun q h1 h2 => by omega⟩
    · rw [if_neg hB] at h
      obtain ⟨h1, h2, h3, h4⟩ := ih (lo + 1) p h
      refine ⟨h1, by omega, by omega, ?_⟩
      intro q hq1 hq2
      rcases Nat.eq_or_lt_of_le hq1 with rfl | hlt
      · exact boolNotTrue hB
      · exact h4 q hlt hq2

theorem assocKeyInj {β : Type} :
    ∀ (l : List (String × β)), (l.map Prod.fst).Nodup →
      ∀ {a : String} {b₁ b₂ : β}, (a, b₁) ∈ l → (a, b₂) ∈ l → b₁ = b₂ := by
  intro l
  induction l with
  | nil => intro _ a b₁ b₂ h; simp at h
  | cons hd tl ih =>
    intro hnd a b₁ b₂ h1 h2
    simp only [List.map_cons, List.nodup_cons] at hnd
    rcases List.mem_cons.mp h1 with rfl | h1'
    · rcases List.mem_cons.mp h2 with h2e | h2'
      · exact (Prod.mk.injEq _ _ _ _ ▸ h2e.symm).2
      · exact absurd (List.mem_map.mpr ⟨_, h2', rfl⟩) hnd.1
    · rcases List.mem_cons.mp h2 with rfl | h2'
      · exact absurd (List.mem_map.mpr ⟨_, h1', rfl⟩) hnd.1
      · exact ih hnd.2 h1' h2'

theorem markedForCleanup_iff (now maxAge : Int) (t : TransferRec) :
    markedForCleanup now maxAge t = true ↔
      (isTerminalStatus t.status = true ∧
        ∃ e, t.endTime = some e ∧ e ≠ 0 ∧ now - e > maxAge) := by
  unfold markedForCleanup
  by_cases ht : isTerminalStatus t.status = true
  · rw [if_pos ht]
    cases he : t.endTime with
    | none => simp [ht, he]
    | some e =>
      simp only [ht, he, true_and, Bool.and_eq_true, Bool.not_eq_true',
        beq_eq_false_iff_ne, decide_eq_true_eq]
      constructor
      · rintro ⟨h1, h2⟩; exact ⟨e, rfl, h1, h2⟩
      · rintro ⟨e', he', h1, h2⟩; cases he'; exact ⟨h1, h2⟩
  · rw [if_neg ht]
    simp [ht]

theorem lookup_removeOffer (token : String) :
    ∀ (table : List (String × PassiveOffer)),
      (removeOffer table token).lookup token = none := by
  intro table
  induction table with
  | nil => rfl
  | cons hd tl ih =>
    unfold removeOffer at *
    by_cases h : hd.1 = token
    · have hb : (hd.1 == token) = true := beq_iff_eq.mpr h
      simp [List.filter, hb, ih]
    · have hb : (hd.1 == token) = false := beq_eq_false_iff_ne.mpr h
      have hb2 : (token == hd.1) = false := beq_eq_false_iff_ne.mpr (Ne.symm h)
      simp [List.filter, hb, List.lookup, hb2, ih]

/-! ## Claim theorems and witnesses -/

/-- C10: when the configured DCC port range is inverted
(port_range_start > port_range_end), _get_listening_socket does not fail or
report a configuration error: it silently substitutes the default range
1024–65535 and iterates it, returning the first bindable port, and returns
None only after every port in the substituted range fails to bind. -/
theorem c10_inverted_port_range (bindable : Nat → Bool) (s e : Nat)
    (hinv : s > e) :
    getListeningSocket bindable s e = findDccPort bindable 1024 64512 ∧
    (getListeningSocket bindable s e = none ↔
      ∀ p, 1024 ≤ p → p ≤ 65535 → bindable p = false) ∧
    (∀ p, getListeningSocket bindable s e = some p →
      bindable p = true ∧ 1024 ≤ p ∧ p ≤ 65535 ∧
        ∀ q, 1024 ≤ q → q < p → bindable q = false) := by
  have heq : getListeningSocket bindable s e = findDccPort bindable 1024 64512 := by
    unfold getListeningSocket
    rw [if_pos hinv, if_pos hinv]
  refine ⟨heq, ?_, ?_⟩
  · rw [heq, findDccPort_eq_none_iff]
    constructor
    · intro h p h1 h2; exact h p h1 (by omega)
    · intro h p h1 h2; exact h p h1 (by omega)
  · intro p hp
    rw [heq] at hp
    obtain ⟨h1, h2, h3, h4⟩ := findDccPort_eq_some bindable 64512 1024 p hp
    exact ⟨h1, h2, by omega, h4⟩

/-- C10 witness: a concrete inverted range finds the first bindable default
port. -/
theorem c10_witness :
    getListeningSocket (fun p => p == 1025) 5000 4000 =
      findDccPort (fun p => p == 1025) 1024 64512 ∧
    getListeningSocket (fun p => p == 1025) 5000 4000 = some 1025 :=
  ⟨(c10_inverted_port_range (fun p => p == 1025) 5000 4000 (by decide)).1,
   by decide⟩

/-- C8: process_user_command maintains a dispatch depth counter; a nested
(re-entrant) invocation returns False immediately without dispatching any
command, script command, or text input, and after every invocation — nested
or top-level, including when a command handler raises — the depth counter is
restored to its value before the call. -/
theorem c8_reentrancy_guard :
    (∀ (env : CmdEnv) (depth : Nat) (line : String), 1 ≤ depth →
        processUserCommand env depth line =
          ({ result := false, action := none, handlerErrored := false }, depth)) ∧
    (∀ (env : CmdEnv) (depth : Nat) (line : String),
        (processUserCommand env depth line).2 = depth) := by
  constructor
  · intro env depth line h
    unfold processUserCommand
    rw [if_pos (by omega)]
    simp
  · intro env depth line
    unfold processUserCommand
    by_cases h : depth + 1 > 1
    · rw [if_pos h]; simp
    · rw [if_neg h]; simp

/-- C8 witness: a nested invocation at depth 1 returns False and restores the
depth; a top-level invocation restores the depth even when the handler
raises. -/
theorem c8_witness :
    processUserCommand ⟨some "Status", ["join"], [], true⟩ 1 "/join #x" =
      ({ result := false, action := none, handlerErrored := false }, 1) ∧
    (processUserCommand ⟨some "Status", ["join"], [], true⟩ 0 "/join #x").2 = 0 :=
  ⟨c8_reentrancy_guard.1 ⟨some "Status", ["join"], [], true⟩ 1 "/join #x" (by decide),
   c8_reentrancy_guard.2 ⟨some "Status", ["join"], [], true⟩ 0 "/join #x"⟩

/-- C6: a single run of the DCC cleanup pass removes from the transfer table
exactly those transfers whose status is COMPLETED, FAILED, CANCELLED or
TIMED_OUT and whose end_time is set (Python truthiness) and older than
transfer_max_age_seconds; every other transfer remains in the table
unmodified, in order. -/
theorem c6_cleanup_exact (now maxAge : Int)
    (transfers : List (String × TransferRec))
    (hnd : (transfers.map Prod.fst).Nodup) :
    (∀ tid t, (tid, t) ∈ cleanupFinishedTransfers true now maxAge transfers ↔
      ((tid, t) ∈ transfers ∧
        ¬(isTerminalStatus t.status = true ∧
          ∃ e, t.endTime = some e ∧ e ≠ 0 ∧ now - e > maxAge))) ∧
    (cleanupFinishedTransfers true now maxAge transfers).Sublist transfers := by
  constructor
  · intro tid t
    unfold cleanupFinishedTransfers
    rw [if_neg (by simp)]
    rw [List.mem_filter]
    constructor
    · rintro ⟨hmem, hnot⟩
      refine ⟨hmem, ?_⟩
      intro hmark
      have hm : markedForCleanup now maxAge t = true :=
        (markedForCleanup_iff now maxAge t).mpr hmark
      have : (tid, t) ∈ transfers.filter (fun p => markedForCleanup now maxAge p.2) :=
        List.mem_filter.mpr ⟨hmem, hm⟩
      have htid : tid ∈ (transfers.filter
          (fun p => markedForCleanup now maxAge p.2)).map (fun p => p.1) :=
        List.mem_map.mpr ⟨(tid, t), this, rfl⟩
      simp only [List.contains, List.elem_eq_mem, Bool.not_eq_true',
        decide_eq_false_iff_not] at hnot
      exact hnot htid
    · rintro ⟨hmem, hnot⟩
      refine ⟨hmem, ?_⟩
      simp only [List.contains, List.elem_eq_mem, Bool.not_eq_true',
        decide_eq_false_iff_not]
      intro htid
      obtain ⟨⟨tid', t'⟩, hmem', heq⟩ := List.mem_map.mp htid
      obtain ⟨hmem'2, hm'⟩ := List.mem_filter.mp hmem'
      cases heq
      have : t' = t := assocKeyInj transfers hnd hmem'2 hmem
      subst this
      exact hnot ((markedForCleanup_iff now maxAge t').mp hm')
  · unfold cleanupFinishedTransfers
    rw [if_neg (by simp)]
    exact List.filter_sublist _

/-- Concrete transfer table for the C6 witness. -/
def w6a : String × TransferRec :=
  ("a", ⟨false, DCCTransferStatus.completed, some 100, "f1", 5, 5, "p", "l"⟩)

def w6b : String × TransferRec :=
  ("b", ⟨false, DCCTransferStatus.transferring, none, "f2", 3, 5, "p", "l"⟩)

def w6c : String × TransferRec :=
  ("c", ⟨false, DCCTransferStatus.failed, some 990, "f3", 1, 5, "p", "l"⟩)

def w6d : String × TransferRec :=
  ("d", ⟨false, DCCTransferStatus.cancelled, none, "f4", 1, 5, "p", "l"⟩)

def w6Table : List (String × TransferRec) := [w6a, w6b, w6c, w6d]

/-- C6 witness: in a concrete table the old completed transfer is removed,
while a live one, a fresh failed one, and a terminal one without end_time
stay. -/
theorem c6_witness :
    ((w6a ∈ cleanupFinishedTransfers true 1000 100 w6Table) ↔
      (w6a ∈ w6Table ∧
        ¬(isTerminalStatus w6a.2.status = true ∧
          ∃ e, w6a.2.endTime = some e ∧ e ≠ 0 ∧ (1000 : Int) - e > 100))) ∧
    cleanupFinishedTransfers true 1000 100 w6Table = [w6b, w6c, w6d] :=
  ⟨(c6_cleanup_exact 1000 100 w6Table (by decide)).1 w6a.1 w6a.2, by decide⟩

/-- C5: when add_message targets the active context while the user is
scrolled up (scrollback_offset > 0), the offset grows by exactly the number
of wrapped lines added for the message; when the offset is 0 or the target
is not active, the offset is unchanged. -/
theorem c5_scrollback_pinning (st : UiState) (target text ts : String)
    (prefixTime : Bool) (maxW maxHistory : Nat) (ctx : CtxView)
    (hctx : st.contexts target = some ctx) :
    ((addMessage st target text ts prefixTime maxW maxHistory false).contexts
        target).map CtxView.scrollbackOffset =
      some (if st.active = some target ∧ 0 < ctx.scrollbackOffset then
              ctx.scrollbackOffset +
                (wrapLines (pyFullMessage text ts prefixTime) maxW).length
            else ctx.scrollbackOffset) := by
  unfold addMessage
  simp [hctx]

/-- C5 witness: a concrete active context scrolled up by 3 gains the wrapped
line count (3 lines) of one message; the same message to an unscrolled
context leaves its offset at 0. -/
theorem c5_witness :
    ((addMessage
        ⟨fun s => if s = "#c" then some ⟨["x"], 3⟩ else none, some "#c"⟩
        "#c" "hello world" "12:00:00 " true 10 50 false).contexts "#c").map
        CtxView.scrollbackOffset =
      some (if (some "#c" : Option String) = some "#c" ∧ 0 < 3 then
              3 + (wrapLines (pyFullMessage "hello world" "12:00:00 " true) 10).length
            else 3) ∧
    ((addMessage
        ⟨fun s => if s = "#c" then some ⟨["x"], 3⟩ else none, some "#c"⟩
        "#c" "hello world" "12:00:00 " true 10 50 false).contexts "#c").map
        CtxView.scrollbackOffset = some 6 :=
  ⟨c5_scrollback_pinning
      ⟨fun s => if s = "#c" then some ⟨["x"], 3⟩ else none, some "#c"⟩
      "#c" "hello world" "12:00:00 " true 10 50 ⟨["x"], 3⟩ (by decide),
   by decide⟩

/-- C9: accept_passive_offer_by_token matches the stored passive offer by
token alone: a stored, unexpired offer with the given token is accepted and
removed from the offer table even when the user-supplied filename differs,
and the resulting transfer uses the offer's stored filename, filesize,
sender nick and sender IP rather than the user-supplied filename. -/
theorem c9_accept_by_token_alone (table : List (String × PassiveOffer))
    (userFilename1 userFilename2 token : String) (now timeout : Int)
    (o : PassiveOffer) (hget : getOffer table token now timeout = some o) :
    acceptPassiveOfferByToken table userFilename1 token now timeout =
      (removeOffer table token,
       some { peerNick := o.nick, offeredFilename := o.filename,
              offeredFilesize := o.filesize, offerToken := token,
              peerIp := o.ipStr }) ∧
    (removeOffer table token).lookup token = none ∧
    acceptPassiveOfferByToken table userFilename1 token now timeout =
      acceptPassiveOfferByToken table userFilename2 token now timeout ∧
    (∀ (enabled validationOk socketOk : Bool) (tr : ReceiveTransferRec),
        initiatePassiveReceive enabled validationOk socketOk
            { peerNick := o.nick, offeredFilename := o.filename,
              offeredFilesize := o.filesize, offerToken := token,
              peerIp := o.ipStr } = some tr →
        tr = { peerNick := o.nick, filename := o.filename,
               filesize := o.filesize, peerIp := o.ipStr }) := by
  refine ⟨?_, lookup_removeOffer token table, ?_, ?_⟩
  · unfold acceptPassiveOfferByToken
    rw [hget]
  · unfold acceptPassiveOfferByToken
    rw [hget]
  · intro enabled validationOk socketOk tr htr
    unfold initiatePassiveReceive at htr
    by_cases he : enabled = true
    · by_cases hv : validationOk = true
      · by_cases hs : socketOk = true
        · rw [he, hv, hs] at htr
          simp at htr
          exact htr.symm
        · rw [he, hv, boolNotTrue hs] at htr; simp at htr
      · rw [he, boolNotTrue hv] at htr; simp at htr
    · rw [boolNotTrue he] at htr; simp at htr

/-- C9 witness: a concrete offer table with one unexpired offer, accepted
under a mismatching user filename. -/
theorem c9_witness :
    acceptPassiveOfferByToken
        [("tok42", ⟨"alice", "Gift.bin", 2048, some "10.0.0.1", 50⟩)]
        "WRONGNAME.bin" "tok42" 60 600 =
      (removeOffer [("tok42", ⟨"alice", "Gift.bin", 2048, some "10.0.0.1", 50⟩)] "tok42",
       some { peerNick := "alice", offeredFilename := "Gift.bin",
              offeredFilesize := 2048, offerToken := "tok42",
              peerIp := some "10.0.0.1" }) ∧
    acceptPassiveOfferByToken
        [("tok42", ⟨"alice", "Gift.bin", 2048, some "10.0.0.1", 50⟩)]
        "WRONGNAME.bin" "tok42" 60 600 =
      ([], some ⟨"alice", "Gift.bin", 2048, "tok42", some "10.0.0.1"⟩) :=
  ⟨(c9_accept_by_token_alone
      [("tok42", ⟨"alice", "Gift.bin", 2048, some "10.0.0.1", 50⟩)]
      "WRONGNAME.bin" "gift.bin" "tok42" 60 600
      ⟨"alice", "Gift.bin", 2048, some "10.0.0.1", 50⟩ (by decide)).1,
   by decide⟩

/-- C3 counterexample: a PRIVMSG carrying a DCC CTCP while DCC is disabled is
handed to the DCC manager, which drops it — it is NOT treated as normal text
by the router, contrary to the claim's "in every other case (including a DCC
payload while DCC is disabled) the message is treated as normal text". -/
theorem c3_counterexample :
    dispatchServerMessage "PRIVMSG" (some "\x01DCC SEND f 1 1 1\x01") false =
      MsgRoute.droppedDccDisabled ∧
    MsgRoute.droppedDccDisabled ≠ MsgRoute.router := by
  decide

/-- C3 amended: for every inbound PRIVMSG or NOTICE whose trailing begins and
ends with \x01, the CTCP payload between the \x01 bytes is extracted; if the
payload starts with `DCC ` (case-insensitive) the message is always diverted
to the DCC manager (constructed unconditionally): with DCC enabled it reaches
the DCC CTCP handler, with DCC disabled the manager drops it without routing
it as normal text.  Every message that is not such a DCC CTCP goes to the
normal message router. -/
theorem c3_ctcp_gating :
    (∀ (cmd : String) (trailing : Option String),
        (cmd = "PRIVMSG" ∨ cmd = "NOTICE") → isDccCtcpTrailing trailing = true →
        dispatchServerMessage cmd trailing true =
          MsgRoute.dccCtcp (strDropRight (strDrop (trailing.getD "") 1) 1) ∧
        dispatchServerMessage cmd trailing false = MsgRoute.droppedDccDisabled) ∧
    (∀ (cmd : String) (trailing : Option String) (dccEnabled : Bool),
        isDccCtcpTrailing trailing = false →
        dispatchServerMessage cmd trailing dccEnabled = MsgRoute.router) ∧
    (∀ (cmd : String) (trailing : Option String) (dccEnabled : Bool),
        ¬(cmd = "PRIVMSG" ∨ cmd = "NOTICE") →
        dispatchServerMessage cmd trailing dccEnabled = MsgRoute.router) := by
  refine ⟨?_, ?_, ?_⟩
  · intro cmd trailing hcmd hctcp
    unfold isDccCtcpTrailing at hctcp
    simp only [Bool.and_eq_true] at hctcp
    obtain ⟨⟨h1, h2⟩, h3⟩ := hctcp
    constructor
    · unfold dispatchServerMessage
      rw [if_pos hcmd]
      simp [h1, h2, h3]
    · unfold dispatchServerMessage
      rw [if_pos hcmd]
      simp [h1, h2, h3]
  · intro cmd trailing dccEnabled hctcp
    unfold isDccCtcpTrailing at hctcp
    unfold dispatchServerMessage
    by_cases hcmd : cmd = "PRIVMSG" ∨ cmd = "NOTICE"
    · rw [if_pos hcmd]
      by_cases hbr : (strStarts (trailing.getD "") "\x01" &&
          strEnds (trailing.getD "") "\x01") = true
      · rw [if_pos hbr]
        by_cases hdcc : strStarts
            (pyUpper (strDropRight (strDrop (trailing.getD "") 1) 1)) "DCC " = true
        · rw [hbr, hdcc] at hctcp
          simp at hctcp
        · rw [if_neg hdcc]
      · rw [if_neg hbr]
    · rw [if_neg hcmd]
  · intro cmd trailing dccEnabled hcmd
    unfold dispatchServerMessage
    rw [if_neg hcmd]

/-- C3 witness: the amended behavior at a concrete DCC CTCP. -/
theorem c3_witness :
    dispatchServerMessage "PRIVMSG" (some "\x01DCC SEND f 1 1 1\x01") true =
      MsgRoute.dccCtcp
        (strDropRight (strDrop ((some "\x01DCC SEND f 1 1 1\x01" : Option String).getD "") 1) 1) ∧
    dispatchServerMessage "PRIVMSG" (some "\x01DCC SEND f 1 1 1\x01") true =
      MsgRoute.dccCtcp "DCC SEND f 1 1 1" :=
  ⟨(c3_ctcp_gating.1 "PRIVMSG" (some "\x01DCC SEND f 1 1 1\x01")
      (Or.inl rfl) (by decide)).1,
   by decide⟩

/-- C2 counterexample: with current nick `Bob` and initial nick `bob`, the
433 handler's first branch fires on the case-insensitive comparison and
builds the candidate from the INITIAL nick, sending `bob_`; the claim's rules
(exact equality; otherwise append to the current nick) yield `Bob_`. -/
theorem c2_counterexample :
    handleErrNicknameInUse ⟨"Bob", none, false, "bob"⟩ "Bob" =
      ({ nick := "bob_", lastAttempted := none, isHandlingCollision := true,
         initialNick := "bob" }, some "bob_") ∧
    claimNickCandidate "Bob" "bob" = "Bob_" ∧
    ("bob_" : String) ≠ "Bob_" := by
  decide

/-- C2 amended: when 433 arrives for our own current nick (case-insensitive
match, nonempty), with no user-initiated nick change in flight for that nick
and no collision retry in progress, the handler computes exactly one
candidate: if the current nick equals the initial nick CASE-INSENSITIVELY,
the candidate is the INITIAL nick with `_` appended; otherwise if the current
nick ends in `_`, that `_` is replaced by `1`; otherwise if it ends in a
digit, that digit is incremented; otherwise `_` is appended.  The result is
truncated to 9 characters and sent in a single NICK command with the
collision flag set; while the flag is set a further 433 sends nothing and
clears the flag (one automatic retry per collision). -/
theorem c2_nick_collision :
    (∀ (st : NickState) (failedNick : String),
        userNickChangeInFlight st failedNick = false →
        st.nick ≠ "" → pyLower st.nick = pyLower failedNick →
        st.isHandlingCollision = false →
        handleErrNicknameInUse st failedNick =
          ({ st with
              isHandlingCollision := true
              nick := truncate9 (genNickCandidate st.nick st.initialNick) },
           some (truncate9 (genNickCandidate st.nick st.initialNick)))) ∧
    (∀ (st : NickState) (failedNick : String),
        userNickChangeInFlight st failedNick = false →
        st.nick ≠ "" → pyLower st.nick = pyLower failedNick →
        st.isHandlingCollision = true →
        handleErrNicknameInUse st failedNick =
          ({ st with isHandlingCollision := false }, none)) ∧
    (∀ current initial : String, pyLower current = pyLower initial →
        genNickCandidate current initial = initial ++ "_") ∧
    (∀ current initial : String, pyLower current ≠ pyLower initial →
        strEnds current "_" = true →
        genNickCandidate current initial = strDropRight current 1 ++ "1") ∧
    (∀ current initial : String, pyLower current ≠ pyLower initial →
        strEnds current "_" = false → (lastCharD current).isDigit = true →
        genNickCandidate current initial =
          strDropRight current 1 ++ natDecimal ((lastCharD current).toNat - 48 + 1)) ∧
    (∀ current initial : String, pyLower current ≠ pyLower initial →
        strEnds current "_" = false → (lastCharD current).isDigit = false →
        genNickCandidate current initial = current ++ "_") ∧
    (∀ s : String, strLen (truncate9 s) ≤ 9) := by
  refine ⟨?_, ?_, ?_, ?_, ?_, ?_, ?_⟩
  · intro st failedNick hflight hne hlow hcoll
    unfold handleErrNicknameInUse
    rw [if_neg (by simp [hflight])]
    have hne' : (st.nick == "") = false := beq_eq_false_iff_ne.mpr hne
    have hlow' : (pyLower st.nick == pyLower failedNick) = true := beq_iff_eq.mpr hlow
    simp [hne', hlow', hcoll]
  · intro st failedNick hflight hne hlow hcoll
    unfold handleErrNicknameInUse
    rw [if_neg (by simp [hflight])]
    have hne' : (st.nick == "") = false := beq_eq_false_iff_ne.mpr hne
    have hlow' : (pyLower st.nick == pyLower failedNick) = true := beq_iff_eq.mpr hlow
    simp [hne', hlow', hcoll]
  · intro current initial h
    unfold genNickCandidate
    rw [if_pos h]
  · intro current initial h he
    unfold genNickCandidate
    rw [if_neg h, if_pos he]
  · intro current initial h he hd
    unfold genNickCandidate
    rw [if_neg h, if_neg (by simp [he]), if_pos hd]
  · intro current initial h he hd
    unfold genNickCandidate
    rw [if_neg h, if_neg (by simp [he]), if_neg (by simp [hd])]
  · intro s
    unfold truncate9
    by_cases h : strLen s > 9
    · rw [if_pos h]
      simp [strLen, strTake]
    · rw [if_neg h]
      unfold strLen at h ⊢
      omega

/-- C2 witness: the amended handler behavior at concrete states — the first
collision for `alice` sends `alice_` and sets the flag; a second 433 while
the flag is set sends nothing and clears it. -/
theorem c2_witness :
    handleErrNicknameInUse ⟨"alice", none, false, "alice"⟩ "alice" =
      ({ nick := "alice_", lastAttempted := none, isHandlingCollision := true,
         initialNick := "alice" }, some "alice_") ∧
    handleErrNicknameInUse ⟨"alice_", none, true, "alice"⟩ "alice_" =
      ({ nick := "alice_", lastAttempted := none, isHandlingCollision := false,
         initialNick := "alice" }, none) :=
  ⟨(c2_nick_collision.1 ⟨"alice", none, false, "alice"⟩ "alice" (by decide)
      (by decide) (by decide) rfl).trans (by decide),
   (c2_nick_collision.2.1 ⟨"alice_", none, true, "alice"⟩ "alice_" (by decide)
      (by decide) (by decide) rfl).trans (by decide)⟩

theorem joinedInv_iff (st : JoinState) : joinedInv st ↔ joinedInvB st = true := by
  unfold joinedInv joinedInvB
  cases hj : st.joined with
  | none => simp
  | some j =>
    rw [List.all_eq_true]
    constructor
    · intro h r hr
      obtain ⟨c, hc, hs⟩ := h j rfl r hr
      rw [hc]
      simp [hs]
    · intro h j' hj' r hr
      obtain rfl : j = j' := by injection hj'
      have := h r hr
      cases hcx : st.contexts (normName r) with
      | none => rw [hcx] at this; simp at this
      | some c => rw [hcx] at this; simp at this; exact ⟨c, rfl, this⟩

/-- Start state for the C1 counterexample: the invariant holds — `#FOO` is
joined and Context[`#FOO`] (case-folded lookup) is the FULLY_JOINED channel
`#foo`. -/
def c1State : JoinState :=
  { contexts := fun s =>
      if s = "#foo" then some ⟨CtxType.channel, ChannelJoinStatus.fullyJoined⟩
      else none,
    joined := some ["#FOO"] }

/-- C1 counterexample: handling 403 for `#foo` from a state satisfying the
subset invariant breaks it — the handler sets the (case-folded) context's
join_status to JOIN_FAILED but `set.discard` removes only the exact string
`#foo`, stranding the differently-cased joined entry `#FOO`. -/
theorem c1_counterexample :
    joinedInv c1State ∧ ¬ joinedInv (handleErrChannelJoin c1State "#foo") := by
  constructor
  · rw [joinedInv_iff]
    decide
  · rw [joinedInv_iff]
    decide

/-- C1 amended: starting from any state satisfying
`currently_joined_channels ⊆ [c : Context[c].join_status == FULLY_JOINED]`,
the RPL_ENDOFNAMES (366) handler preserves the invariant unconditionally (it
adds a channel to currently_joined_channels only when it also sets that
channel's join_status to FULLY_JOINED); the 403/471/473/474/475 handlers set
join_status to JOIN_FAILED and remove the channel, preserving the invariant
PROVIDED every joined entry that case-folds to the failing channel's name is
spelled exactly like it (removal is an exact-string set.discard while the
join_status lookup case-folds). -/
theorem c1_join_invariant :
    (∀ (st : JoinState) (chan : String),
        joinedInv st → joinedInv (handleRplEndofnames st chan)) ∧
    (∀ (st : JoinState) (chan : String),
        joinedInv st →
        (∀ j, st.joined = some j → ∀ r ∈ j, normName r = normName chan → r = chan) →
        joinedInv (handleErrChannelJoin st chan)) := by
  constructor
  · intro st chan hInv
    unfold handleRplEndofnames
    cases hcx : st.contexts (normName chan) with
    | none => exact hInv
    | some ctx =>
      dsimp only
      by_cases hty : ctx.type = CtxType.channel
      · rw [if_pos hty]
        by_cases hst : ctx.joinStatus = ChannelJoinStatus.selfJoinReceived ∨
            ctx.joinStatus = ChannelJoinStatus.joinCommandSent ∨
            ctx.joinStatus = ChannelJoinStatus.pendingInitialJoin
        · rw [if_pos hst]
          intro j hj r hr
          simp only [Option.map_eq_some'] at hj
          obtain ⟨j0, hj0, rfl⟩ := hj
          rw [List.mem_insert_iff] at hr
          rcases hr with rfl | hr0
          · refine ⟨{ ctx with joinStatus := ChannelJoinStatus.fullyJoined }, ?_, rfl⟩
            simp
          · obtain ⟨c, hc, hs⟩ := hInv j0 hj0 r hr0
            by_cases heq : normName r = normName chan
            · refine ⟨{ ctx with joinStatus := ChannelJoinStatus.fullyJoined }, ?_, rfl⟩
              simp [heq]
            · refine ⟨c, ?_, hs⟩
              show (if normName r = normName chan then
                  some { ctx with joinStatus := ChannelJoinStatus.fullyJoined }
                else st.contexts (normName r)) = some c
              rw [if_neg heq]
              exact hc
        · rw [if_neg hst]
          exact hInv
      · rw [if_neg hty]
        exact hInv
  · intro st chan hInv hsame
    unfold handleErrChannelJoin
    cases hcx : st.contexts (normName chan) with
    | none =>
      intro j hj r hr
      simp only [Option.map_eq_some'] at hj
      obtain ⟨j0, hj0, rfl⟩ := hj
      rw [List.mem_filter] at hr
      exact hInv j0 hj0 r hr.1
    | some ctx =>
      dsimp only
      by_cases hty : ctx.type = CtxType.channel
      · rw [if_pos hty]
        intro j hj r hr
        simp only [Option.map_eq_some'] at hj
        obtain ⟨j0, hj0, rfl⟩ := hj
        rw [List.mem_filter] at hr
        obtain ⟨hr0, hne⟩ := hr
        have hne' : r ≠ chan := by simpa using hne
        have hnn : normName r ≠ normName chan :=
          fun he => hne' (hsame j0 hj0 r hr0 he)
        obtain ⟨c, hc, hs⟩ := hInv j0 hj0 r hr0
        refine ⟨c, ?_, hs⟩
        show (if normName r = normName chan then
            some { ctx with joinStatus := ChannelJoinStatus.joinFailed }
          else st.contexts (normName r)) = some c
        rw [if_neg hnn]
        exact hc
      · rw [if_neg hty]
        intro j hj r hr
        simp only [Option.map_eq_some'] at hj
        obtain ⟨j0, hj0, rfl⟩ := hj
        rw [List.mem_filter] at hr
        exact hInv j0 hj0 r hr.1

/-- Concrete 366 start state for the C1 witness: `#chat` exists as a channel
in SELF_JOIN_RECEIVED and nothing is joined yet. -/
def c1Witness366State : JoinState :=
  { contexts := fun s =>
      if s = "#chat" then some ⟨CtxType.channel, ChannelJoinStatus.selfJoinReceived⟩
      else none,
    joined := some [] }

/-- Concrete error-numeric start state for the C1 witness: `#bad` is fully
joined with a consistently spelled joined entry. -/
def c1Witness403State : JoinState :=
  { contexts := fun s =>
      if s = "#bad" then some ⟨CtxType.channel, ChannelJoinStatus.fullyJoined⟩
      else none,
    joined := some ["#bad"] }

/-- C1 witness: the amended preservation at concrete states. -/
theorem c1_witness :
    joinedInv (handleRplEndofnames c1Witness366State "#chat") ∧
    joinedInv (handleErrChannelJoin c1Witness403State "#bad") :=
  ⟨c1_join_invariant.1 c1Witness366State "#chat"
      ((joinedInv_iff c1Witness366State).mpr (by decide)),
   c1_join_invariant.2 c1Witness403State "#bad"
      ((joinedInv_iff c1Witness403State).mpr (by decide))
      (by
        intro j hj r hr _
        obtain rfl : (["#bad"] : List String) = j := by
          have : c1Witness403State.joined = some ["#bad"] := rfl
          rw [this] at hj
          injection hj
        simpa using hr)⟩

theorem finishResume_spec (t : TransferRec) :
    (isInitiated (finishResume t) = true ↔
      (resumableByStatus t = true ∧ 0 < t.bytesTransferred ∧
        t.bytesTransferred < t.filesize)) ∧
    (resumableByStatus t = true → 0 < t.bytesTransferred →
      t.bytesTransferred < t.filesize →
      finishResume t =
        ResumeResult.initiated t.peerNick t.localFilepath t.originalFilename
          t.filesize) := by
  unfold finishResume
  by_cases h1 : resumableByStatus t = true
  · rw [if_neg (by simp [h1])]
    by_cases h4 : 0 < t.bytesTransferred
    · by_cases h5 : t.bytesTransferred < t.filesize
      · rw [if_neg (by simp [h4, h5])]
        constructor
        · simp [isInitiated, h1, h4, h5]
        · intro _ _ _; rfl
      · rw [if_pos (by simp [h5])]
        constructor
        · simp [isInitiated, h5]
        · intro _ _ h5'; exact absurd h5' h5
    · rw [if_pos (by simp [h4])]
      constructor
      · simp [isInitiated, h4]
      · intro _ h4' _; exact absurd h4' h4
  · rw [if_pos (by simp [boolNotTrue h1])]
    constructor
    · simp [isInitiated, h1]
    · intro h1' _ _; exact absurd h1' h1

/-- C7: attempt_user_resume returns a failure and initiates nothing unless
DCC and resume are enabled, the identifier matches exactly one outgoing SEND
transfer (first by id-prefix, failing that by case-insensitive filename,
multiple matches in either lookup rejected as ambiguous), the matched
transfer's status is FAILED/CANCELLED/TIMED_OUT, and its bytes_transferred is
strictly between 0 and its filesize; when all hold, a new send operation is
initiated for that transfer's file and peer. -/
theorem c7_resume_guards :
    (∀ (enabled resumeEnabled : Bool)
        (transfers : List (String × TransferRec)) (identifier : String),
        isInitiated (attemptUserResume enabled resumeEnabled transfers identifier) = true →
        enabled = true ∧ resumeEnabled = true ∧
          ∃ t, lookupResumable transfers identifier = some t ∧
            resumableByStatus t = true ∧
            0 < t.bytesTransferred ∧ t.bytesTransferred < t.filesize) ∧
    (∀ (transfers : List (String × TransferRec)) (identifier : String)
        (t : TransferRec),
        lookupResumable transfers identifier = some t →
        resumableByStatus t = true →
        0 < t.bytesTransferred → t.bytesTransferred < t.filesize →
        attemptUserResume true true transfers identifier =
          ResumeResult.initiated t.peerNick t.localFilepath t.originalFilename
            t.filesize) := by
  constructor
  · intro enabled resumeEnabled transfers identifier h
    cases enabled with
    | false => unfold attemptUserResume at h; simp [isInitiated] at h
    | true =>
      cases resumeEnabled with
      | false => unfold attemptUserResume at h; simp [isInitiated] at h
      | true =>
        refine ⟨rfl, rfl, ?_⟩
        unfold attemptUserResume at h
        rw [if_neg (by simp), if_neg (by simp)] at h
        unfold lookupResumable
        cases hid : transfers.filter
            (fun p => strStarts p.1 identifier && p.2.isSend) with
        | nil =>
          rw [hid] at h
          cases hnm : transfers.filter
              (fun p => p.2.isSend &&
                (pyLower p.2.originalFilename == pyLower identifier)) with
          | nil => rw [hnm] at h; simp [isInitiated] at h
          | cons q qs =>
            cases qs with
            | nil =>
              rw [hnm] at h
              obtain ⟨hs, hb1, hb2⟩ := (finishResume_spec q.2).1.mp h
              exact ⟨q.2, by dsimp, hs, hb1, hb2⟩
            | cons q2 qs2 => rw [hnm] at h; simp [isInitiated] at h
        | cons p ps =>
          cases ps with
          | nil =>
            rw [hid] at h
            obtain ⟨hs, hb1, hb2⟩ := (finishResume_spec p.2).1.mp h
            exact ⟨p.2, by dsimp, hs, hb1, hb2⟩
          | cons p2 ps2 => rw [hid] at h; simp [isInitiated] at h
  · intro transfers identifier t hlook h1 h2 h3
    unfold attemptUserResume
    rw [if_neg (by simp), if_neg (by simp)]
    unfold lookupResumable at hlook
    cases hid : transfers.filter
        (fun p => strStarts p.1 identifier && p.2.isSend) with
    | nil =>
      rw [hid] at hlook
      cases hnm : transfers.filter
          (fun p => p.2.isSend &&
            (pyLower p.2.originalFilename == pyLower identifier)) with
      | nil => rw [hnm] at hlook; cases hlook
      | cons q qs =>
        cases qs with
        | nil =>
          rw [hnm] at hlook
          obtain rfl : q.2 = t := by dsimp at hlook; injection hlook
          exact (finishResume_spec q.2).2 h1 h2 h3
        | cons q2 qs2 => rw [hnm] at hlook; cases hlook
    | cons p ps =>
      cases ps with
      | nil =>
        rw [hid] at hlook
        obtain rfl : p.2 = t := by dsimp at hlook; injection hlook
        exact (finishResume_spec p.2).2 h1 h2 h3
      | cons p2 ps2 => rw [hid] at hlook; cases hlook

/-- Concrete transfer for the C7 witness: an outgoing SEND that failed at
500/1000 bytes. -/
def w7t : TransferRec :=
  ⟨true, DCCTransferStatus.failed, some 10, "File.txt", 500, 1000, "peer",
   "/p/File.txt"⟩

def w7Table : List (String × TransferRec) := [("abc123", w7t)]

/-- C7 witness: resuming by id-prefix on a concrete table starts the send for
the matched transfer's file and peer. -/
theorem c7_witness :
    attemptUserResume true true w7Table "abc" =
      ResumeResult.initiated w7t.peerNick w7t.localFilepath w7t.originalFilename
        w7t.filesize ∧
    attemptUserResume true true w7Table "abc" =
      ResumeResult.initiated "peer" "/p/File.txt" "File.txt" 1000 :=
  ⟨c7_resume_guards.2 w7Table "abc" w7t (by decide) (by decide) (by decide)
      (by decide),
   (c7_resume_guards.2 w7Table "abc" w7t (by decide) (by decide) (by decide)
      (by decide)).trans (by decide)⟩

theorem lexLe_total : ∀ a b : List Char, lexLe a b = true ∨ lexLe b a = true := by
  intro a
  induction a with
  | nil => intro b; left; rfl
  | cons x xs ih =>
    intro b
    cases b with
    | nil => right; rfl
    | cons y ys =>
      unfold lexLe
      rcases lt_trichotomy x y with h | h | h
      · left; rw [if_pos h]
      · subst h
        rw [if_neg (lt_irrefl x), if_pos rfl, if_neg (lt_irrefl x), if_pos rfl]
        exact ih ys
      · right; rw [if_pos h]

theorem lexLe_trans :
    ∀ a b c : List Char, lexLe a b = true → lexLe b c = true →
      lexLe a c = true := by
  intro a
  induction a with
  | nil => intro b c _ _; rfl
  | cons x xs ih =>
    intro b c hab hbc
    cases b with
    | nil => exact absurd hab (by simp [lexLe])
    | cons y ys =>
      cases c with
      | nil => exact absurd hbc (by simp [lexLe])
      | cons z zs =>
        unfold lexLe at hab hbc ⊢
        rcases lt_trichotomy x y with h1 | h1 | h1
        · rcases lt_trichotomy y z with h2 | h2 | h2
          · rw [if_pos (lt_trans h1 h2)]
          · subst h2; rw [if_pos h1]
          · rw [if_neg (asymm h2), if_neg (ne_of_gt h2)] at hbc
            exact absurd hbc (by simp)
        · subst h1
          rw [if_neg (lt_irrefl x), if_pos rfl] at hab
          rcases lt_trichotomy x z with h2 | h2 | h2
          · rw [if_pos h2]
          · subst h2
            rw [if_neg (lt_irrefl x), if_pos rfl] at hbc ⊢
            exact ih ys zs hab hbc
          · rw [if_neg (asymm h2), if_neg (ne_of_gt h2)] at hbc
            exact absurd hbc (by simp)
        · rw [if_neg (asymm h1), if_neg (ne_of_gt h1)] at hab
          exact absurd hab (by simp)

theorem ciLe_total (a b : String) : ciLe a b = true ∨ ciLe b a = true :=
  lexLe_total _ _

theorem ciLe_trans {a b c : String} (h1 : ciLe a b = true)
    (h2 : ciLe b c = true) : ciLe a c = true :=
  lexLe_trans _ _ _ h1 h2

theorem mem_insertCi (x : String) :
    ∀ (l : List String) (a : String), a ∈ insertCi x l ↔ a = x ∨ a ∈ l := by
  intro l
  induction l with
  | nil => intro a; simp [insertCi]
  | cons y ys ih =>
    intro a
    unfold insertCi
    by_cases h : ciLe y x = true
    · rw [if_pos h]
      simp only [List.mem_cons, ih]
      tauto
    · rw [if_neg h]
      simp only [List.mem_cons]

theorem pairwise_insertCi (x : String) :
    ∀ (l : List String), l.Pairwise (fun a b => ciLe a b = true) →
      (insertCi x l).Pairwise (fun a b => ciLe a b = true) := by
  intro l
  induction l with
  | nil => intro _; simp [insertCi]
  | cons y ys ih =>
    intro hp
    rw [List.pairwise_cons] at hp
    obtain ⟨hy, hys⟩ := hp
    unfold insertCi
    by_cases h : ciLe y x = true
    · rw [if_pos h]
      rw [List.pairwise_cons]
      constructor
      · intro a ha
        rw [mem_insertCi] at ha
        rcases ha with rfl | ha
        · exact h
        · exact hy a ha
      · exact ih hys
    · rw [if_neg h]
      have hx : ciLe x y = true := by
        rcases ciLe_total x y with hh | hh
        · exact hh
        · exact absurd hh h
      rw [List.pairwise_cons]
      constructor
      · intro a ha
        rcases List.mem_cons.mp ha with rfl | ha'
        · exact hx
        · exact ciLe_trans hx (hy a ha')
      · exact List.pairwise_cons.mpr ⟨hy, hys⟩

theorem perm_insertCi (x : String) :
    ∀ l : List String, List.Perm (insertCi x l) (x :: l) := by
  intro l
  induction l with
  | nil => exact List.Perm.refl _
  | cons y ys ih =>
    unfold insertCi
    by_cases h : ciLe y x = true
    · rw [if_pos h]
      exact (ih.cons y).trans (List.Perm.swap x y ys)
    · rw [if_neg h]

theorem sortCi_foldl :
    ∀ (l acc : List String),
      List.Perm (l.foldl (fun acc x => insertCi x acc) acc) (acc ++ l) ∧
      (acc.Pairwise (fun a b => ciLe a b = true) →
        (l.foldl (fun acc x => insertCi x acc) acc).Pairwise
          (fun a b => ciLe a b = true)) := by
  intro l
  induction l with
  | nil =>
    intro acc
    constructor
    · simp
    · exact id
  | cons x xs ih =>
    intro acc
    constructor
    · have h1 := (ih (insertCi x acc)).1
      have h2 : List.Perm (insertCi x acc ++ xs) ((x :: acc) ++ xs) :=
        (perm_insertCi x acc).append_right xs
      have h3 : List.Perm ((x :: acc) ++ xs) (acc ++ x :: xs) :=
        List.perm_middle.symm
      exact (h1.trans h2).trans h3
    · intro hacc
      exact (ih (insertCi x acc)).2 (pairwise_insertCi x acc hacc)

theorem sortCi_perm (l : List String) : List.Perm (sortCi l) l := by
  simpa [sortCi] using (sortCi_foldl l []).1

theorem sortCi_pairwise (l : List String) :
    (sortCi l).Pairwise (fun a b => ciLe a b = true) :=
  (sortCi_foldl l []).2 List.Pairwise.nil

theorem dcc_not_mem_front (names : List String) :
    "DCC" ∉ (if names.contains "Status" then ["Status"] else []) ++
      sortCi (names.filter (fun n => !(n == "Status" || n == "DCC"))) := by
  intro h
  rcases List.mem_append.mp h with h1 | h2
  · by_cases hs : names.contains "Status" = true
    · rw [if_pos hs] at h1; simp at h1
    · rw [if_neg hs] at h1; simp at h1
  · have hm := (sortCi_perm _).mem_iff.mp h2
    rw [List.mem_filter] at hm
    simp at hm

theorem sortedContextNames_eq (names : List String) :
    sortedContextNames names =
      (if names.contains "Status" then ["Status"] else []) ++
        sortCi (names.filter (fun n => !(n == "Status" || n == "DCC"))) ++
        (if names.contains "DCC" then ["DCC"] else []) := by
  unfold sortedContextNames
  dsimp only
  by_cases hd : names.contains "DCC" = true
  · have hnm : (((if names.contains "Status" then ["Status"] else []) ++
        sortCi (names.filter (fun n => !(n == "Status" || n == "DCC")))).contains
          "DCC") = false := by
      apply boolNotTrue
      intro hc
      exact dcc_not_mem_front names (List.elem_iff.mp hc)
    rw [if_pos (by rw [hd, hnm]; rfl), if_pos hd]
  · rw [if_neg (by rw [boolNotTrue hd]; simp), if_neg hd, List.append_nil]

theorem sortedContextNames_ne_nil (names : List String) (h : names ≠ []) :
    sortedContextNames names ≠ [] := by
  intro hnil
  rw [sortedContextNames_eq] at hnil
  simp only [List.append_eq_nil] at hnil
  obtain ⟨⟨hs, hmid⟩, hd⟩ := hnil
  obtain ⟨y, ys, rfl⟩ := List.exists_cons_of_ne_nil h
  have hymem : y ∈ y :: ys := List.mem_cons_self y ys
  by_cases hy1 : y = "Status"
  · subst hy1
    rw [if_pos (List.elem_iff.mpr hymem)] at hs
    cases hs
  · by_cases hy2 : y = "DCC"
    · subst hy2
      rw [if_pos (List.elem_iff.mpr hymem)] at hd
      cases hd
    · have hfil : ((y :: ys).filter
          (fun n => !(n == "Status" || n == "DCC"))) = [] := by
        have hperm := sortCi_perm ((y :: ys).filter
          (fun n => !(n == "Status" || n == "DCC")))
        rw [hmid] at hperm
        exact hperm.symm.eq_nil
      have : y ∈ ((y :: ys).filter (fun n => !(n == "Status" || n == "DCC"))) := by
        rw [List.mem_filter]
        refine ⟨hymem, ?_⟩
        simp [hy1, hy2]
      rw [hfil] at this
      cases this

/-- The tail of switch_active_context once the early returns and the
next/prev branches are out of the way. -/
theorem switchActiveContext_eval (names : List String) (active dir : String)
    (hn : names ≠ []) (ha : active ≠ "") (hnext : dir ≠ "next")
    (hprev : dir ≠ "prev") :
    switchActiveContext names active dir =
      (if (sortedContextNames names).contains dir then SwitchOutcome.switchTo dir
       else
        match pyIntParse dir with
        | some k =>
          if 0 ≤ k - 1 ∧ k - 1 < ((sortedContextNames names).length : Int) then
            SwitchOutcome.switchTo
              ((sortedContextNames names).getD (k - 1).toNat "")
          else SwitchOutcome.invalidNumber
        | none =>
          if ((sortedContextNames names).filter
              (fun nm => strHasSub (pyLower dir) (pyLower nm))).length = 1 then
            SwitchOutcome.switchTo
              (((sortedContextNames names).filter
                (fun nm => strHasSub (pyLower dir) (pyLower nm))).headD "")
          else if ((sortedContextNames names).filter
              (fun nm => strHasSub (pyLower dir) (pyLower nm))).length > 1 then
            SwitchOutcome.ambiguous
          else if ((sortedContextNames names).filter
              (fun nm => pyLower dir == pyLower nm)).length = 1 then
            SwitchOutcome.switchTo
              (((sortedContextNames names).filter
                (fun nm => pyLower dir == pyLower nm)).headD "")
          else SwitchOutcome.notFound) := by
  have hne : names.isEmpty = false := by
    cases names with
    | nil => exact absurd rfl hn
    | cons a l => rfl
  unfold switchActiveContext
  dsimp only
  rw [if_neg (by simp [hne]), if_neg ha, if_neg ha,
    if_neg (fun h0 => sortedContextNames_ne_nil names hn
      (List.length_eq_zero.mp h0)),
    if_neg hnext, if_neg hprev]

/-- C4 counterexample: with contexts Status, #alpha, #Alphabet and argument
`#ALPHA`, the argument is a case-insensitive exact match of exactly one
context name, yet the code reports an ambiguous-match error with no switch —
the claim's "case-insensitive exact match wins over ambiguity" does not hold
(that fallback is unreachable, since an exact case-insensitive match is
always also a substring match). -/
theorem c4_counterexample :
    switchActiveContext ["Status", "#alpha", "#Alphabet"] "Status" "#ALPHA" =
      SwitchOutcome.ambiguous ∧
    (sortedContextNames ["Status", "#alpha", "#Alphabet"]).filter
      (fun nm => pyLower "#ALPHA" == pyLower nm) = ["#alpha"] ∧
    SwitchOutcome.ambiguous ≠ SwitchOutcome.switchTo "#alpha" := by
  decide

/-- C4 amended: the cycle order always places Status first, DCC last, and
the remaining contexts sorted case-insensitively between them; for a name
argument that is not next/prev, resolution proceeds: exact name, then
1-based index, then unique substring match; an ambiguous substring match is
ALWAYS reported as an error with no switch (the case-insensitive exact-match
fallback is dead code, because an exact case-insensitive match is always
also a substring match). -/
theorem c4_switch_resolution :
    (∀ names : List String, sortedContextNames names =
        (if names.contains "Status" then ["Status"] else []) ++
          sortCi (names.filter (fun n => !(n == "Status" || n == "DCC"))) ++
          (if names.contains "DCC" then ["DCC"] else [])) ∧
    (∀ names : List String, "Status" ∈ names →
        (sortedContextNames names).head? = some "Status") ∧
    (∀ names : List String, "DCC" ∈ names →
        (sortedContextNames names).getLast? = some "DCC") ∧
    (∀ names : List String,
        (sortCi (names.filter (fun n => !(n == "Status" || n == "DCC")))).Pairwise
          (fun a b => ciLe a b = true) ∧
        List.Perm (sortCi (names.filter (fun n => !(n == "Status" || n == "DCC"))))
          (names.filter (fun n => !(n == "Status" || n == "DCC")))) ∧
    (∀ (names : List String) (active dir : String), names ≠ [] → active ≠ "" →
        dir ≠ "next" → dir ≠ "prev" → dir ∈ sortedContextNames names →
        switchActiveContext names active dir = SwitchOutcome.switchTo dir) ∧
    (∀ (names : List String) (active dir : String) (k : Int), names ≠ [] →
        active ≠ "" → dir ≠ "next" → dir ≠ "prev" →
        dir ∉ sortedContextNames names → pyIntParse dir = some k →
        1 ≤ k → k ≤ ((sortedContextNames names).length : Int) →
        switchActiveContext names active dir =
          SwitchOutcome.switchTo
            ((sortedContextNames names).getD (k - 1).toNat "")) ∧
    (∀ (names : List String) (active dir : String) (k : Int), names ≠ [] →
        active ≠ "" → dir ≠ "next" → dir ≠ "prev" →
        dir ∉ sortedContextNames names → pyIntParse dir = some k →
        (k < 1 ∨ ((sortedContextNames names).length : Int) < k) →
        switchActiveContext names active dir = SwitchOutcome.invalidNumber) ∧
    (∀ (names : List String) (active dir m : String), names ≠ [] →
        active ≠ "" → dir ≠ "next" → dir ≠ "prev" →
        dir ∉ sortedContextNames names → pyIntParse dir = none →
        (sortedContextNames names).filter
          (fun nm => strHasSub (pyLower dir) (pyLower nm)) = [m] →
        switchActiveContext names active dir = SwitchOutcome.switchTo m) ∧
    (∀ (names : List String) (active dir : String), names ≠ [] →
        active ≠ "" → dir ≠ "next" → dir ≠ "prev" →
        dir ∉ sortedContextNames names → pyIntParse dir = none →
        1 < ((sortedContextNames names).filter
          (fun nm => strHasSub (pyLower dir) (pyLower nm))).length →
        switchActiveContext names active dir = SwitchOutcome.ambiguous) := by
  refine ⟨sortedContextNames_eq, ?_, ?_, ?_, ?_, ?_, ?_, ?_, ?_⟩
  · intro names hmem
    rw [sortedContextNames_eq, if_pos (List.elem_iff.mpr hmem)]
    rfl
  · intro names hmem
    rw [sortedContextNames_eq, if_pos (List.elem_iff.mpr hmem)]
    exact List.getLast?_concat _
  · intro names
    exact ⟨sortCi_pairwise _, sortCi_perm _⟩
  · intro names active dir hn ha hnext hprev hmem
    rw [switchActiveContext_eval names active dir hn ha hnext hprev,
      if_pos (List.elem_iff.mpr hmem)]
  · intro names active dir k hn ha hnext hprev hmem hk h1 h2
    rw [switchActiveContext_eval names active dir hn ha hnext hprev,
      if_neg (fun hc => hmem (List.elem_iff.mp hc)), hk]
    dsimp only
    rw [if_pos (by omega)]
  · intro names active dir k hn ha hnext hprev hmem hk hrange
    rw [switchActiveContext_eval names active dir hn ha hnext hprev,
      if_neg (fun hc => hmem (List.elem_iff.mp hc)), hk]
    dsimp only
    rw [if_neg (by omega)]
  · intro names active dir m hn ha hnext hprev hmem hk hfound
    rw [switchActiveContext_eval names active dir hn ha hnext hprev,
      if_neg (fun hc => hmem (List.elem_iff.mp hc)), hk]
    dsimp only
    rw [hfound]
    rfl
  · intro names active dir hn ha hnext hprev hmem hk hlen
    rw [switchActiveContext_eval names active dir hn ha hnext hprev,
      if_neg (fun hc => hmem (List.elem_iff.mp hc)), hk]
    dsimp only
    rw [if_neg (by omega), if_pos hlen]

/-- C4 witness: the amended resolution at concrete context lists — exact
match, valid index, unique substring, and ambiguity error. -/
theorem c4_witness :
    switchActiveContext ["Status", "#beta", "DCC"] "Status" "#beta" =
      SwitchOutcome.switchTo "#beta" ∧
    switchActiveContext ["Status", "#beta", "DCC"] "Status" "2" =
      SwitchOutcome.switchTo
        ((sortedContextNames ["Status", "#beta", "DCC"]).getD
          ((2 : Int) - 1).toNat "") ∧
    switchActiveContext ["Status", "#beta", "DCC"] "Status" "bet" =
      SwitchOutcome.switchTo "#beta" ∧
    switchActiveContext ["Status", "#alpha", "#Alphabet"] "Status" "#alph" =
      SwitchOutcome.ambiguous :=
  ⟨(c4_switch_resolution.2.2.2.2.1) ["Status", "#beta", "DCC"] "Status" "#beta"
      (by decide) (by decide) (by decide) (by decide) (by decide),
   (c4_switch_resolution.2.2.2.2.2.1) ["Status", "#beta", "DCC"] "Status" "2" 2
      (by decide) (by decide) (by decide) (by decide) (by decide) (by decide)
      (by decide) (by decide),
   (c4_switch_resolution.2.2.2.2.2.2.2.1) ["Status", "#beta", "DCC"] "Status"
      "bet" "#beta" (by decide) (by decide) (by decide) (by decide) (by decide)
      (by decide) (by decide),
   (c4_switch_resolution.2.2.2.2.2.2.2.2) ["Status", "#alpha", "#Alphabet"]
      "Status" "#alph" (by decide) (by decide) (by decide) (by decide)
      (by decide) (by decide) (by decide)⟩

end PyRC
